import Mathlib

/-!
# Verification of zallet's account-resolution, address-derivation and
# async-operation listing logic

Shallow embedding of:
- `src/zallet/src/components/json_rpc/utils.rs`
  (`parse_account_parameter`, `parse_diversifier_index`),
- `src/zallet/src/components/json_rpc/methods/list_operation_ids.rs` (`call`),
- the unified-address derivation pipeline of `z_getaddressforaccount`
  (its implementation module is not in the provided sources; it is modelled
  from the spec where noted).

Machine integers are modelled as `Nat` with explicit bounds where they matter.
Fallible Rust code (`Result`, `?`) is modelled with `Except`.
-/

/-! ## Error model

`LegacyCode` (zcashd-compatible error categories used via
`LegacyCode::X.with_static(..)` / `.with_message(..)`) and jsonrpsee's
`ErrorCode` variants that the embedded code uses. An `RpcError` is either a
legacy-coded error with its message, or a bare jsonrpsee error code. -/

inductive LegacyCode where
  | InvalidParameter
  | Database
  | Wallet
deriving DecidableEq, Repr

inductive RpcErrorCode where
  | InvalidParams
  | InternalError
deriving DecidableEq, Repr

inductive RpcError where
  | legacy (code : LegacyCode) (msg : String)
  | code (c : RpcErrorCode)
deriving DecidableEq, Repr

/-! ## JSON values

`serde_json`'s `Number` is internally `PosInt(u64) | NegInt(i64) | Float(f64)`;
`as_u64` returns `Some` exactly on `PosInt`. `NegInt` is always negative, and
any JSON number that is fractional or outside the `u64`/`i64` ranges is stored
as `Float`; the float payload is irrelevant to `as_u64`, so it is not carried.
Per the design notes, the account parameter is a tagged union
{Number, String, Other}; `other` covers Null/Bool/Array/Object. -/

inductive JsonNumber where
  | posInt (n : Nat)
  | negInt (i : Int)
  | float
deriving DecidableEq, Repr

def JsonNumber.as_u64 : JsonNumber → Option Nat
  | .posInt n => some n
  | .negInt _ => none
  | .float => none

inductive JsonValue where
  | number (n : JsonNumber)
  | string (s : String)
  | other
deriving DecidableEq, Repr

/-! ## Wallet data model

`AccountUuid` is an opaque 128-bit identifier, modelled as `Nat`.
`SeedDerivation` carries the seed fingerprint (32 bytes, modelled as `Nat`)
and the ZIP 32 account index (`u32`). An `Account`'s
`account.source().key_derivation()` is modelled as an `Option SeedDerivation`
field: present for seed-derived accounts, absent for imported ones. -/

abbrev AccountUuid := Nat

abbrev SeedFingerprint := Nat

structure SeedDerivation where
  seed_fingerprint : SeedFingerprint
  account_index : Nat
deriving DecidableEq, Repr

structure Account where
  key_derivation : Option SeedDerivation
deriving DecidableEq, Repr

/-- The `WalletRead` surface used by `parse_account_parameter`:
`get_account_ids` and `get_account`, each of which can fail with a
store-layer error (its message is a `String`), and `get_account` can also
report that an enumerated account no longer exists (`none`). -/
structure DbConnection where
  get_account_ids : Except String (List AccountUuid)
  get_account : AccountUuid → Except String (Option Account)

/-- `const ZCASH_LEGACY_ACCOUNT: u32 = 0x7fff_ffff;` (underscore removed: Lean numerals take none). -/
def ZCASH_LEGACY_ACCOUNT : Nat := 0x7fffffff

/-- The error produced when the JSON number is not a usable account index. -/
def accountRangeErr : RpcError :=
  .legacy .InvalidParameter "Invalid account number, must be 0 <= account <= (2^31)-2."

/-- The error produced when the wallet has a number of distinct seeds other
than one. -/
def multiSeedErr : RpcError :=
  .legacy .Wallet
    "Account numbers are not supported in wallets with multiple seeds. Use the account UUID instead."

/-- The error produced when no seed-derived account carries the requested
ZIP 32 account index. -/
def notGeneratedErr (zip32_account_index : Nat) : RpcError :=
  .legacy .Wallet
    ("Error: account " ++ toString zip32_account_index ++
      " has not been generated by z_getnewaccount.")

/-- `HashSet::insert`: the distinct-seed set is modelled as a duplicate-free
list; inserting an element already present leaves it unchanged. -/
def insertSeed (fp : SeedFingerprint) (seeds : List SeedFingerprint) :
    List SeedFingerprint :=
  if fp ∈ seeds then seeds else fp :: seeds

/-- The body of the `for candidate_account_id in wallet.get_account_ids()?`
loop of `parse_account_parameter`, as a recursion over the enumerated ids.
State: the distinct-seed set and the currently matched account id. -/
def scanAccounts (wallet : DbConnection) (zip32_account_index : Nat) :
    List AccountUuid → List SeedFingerprint → Option AccountUuid →
    Except RpcError (List SeedFingerprint × Option AccountUuid)
  | [], seeds, account_id => .ok (seeds, account_id)
  | cid :: rest, seeds, account_id =>
    match wallet.get_account cid with
    | .error e => .error (.legacy .Database e)
    | .ok none => .error (.code .InternalError)
    | .ok (some account) =>
      match account.key_derivation with
      | some derivation =>
        scanAccounts wallet zip32_account_index rest
          (insertSeed derivation.seed_fingerprint seeds)
          (if derivation.account_index == zip32_account_index then some cid
           else account_id)
      | none => scanAccounts wallet zip32_account_index rest seeds account_id

/-- Lines 35–67 of `utils.rs`: the numeric-account scan run after the range
guard has accepted `zip32_account_index`. -/
def resolveAccountIndex (wallet : DbConnection) (zip32_account_index : Nat) :
    Except RpcError AccountUuid :=
  match wallet.get_account_ids with
  | .error e => .error (.legacy .Database e)
  | .ok ids =>
    match scanAccounts wallet zip32_account_index ids [] none with
    | .error e => .error e
    | .ok (distinct_seeds, account_id) =>
      if distinct_seeds.length == 1 then
        match account_id with
        | some cid => .ok cid
        | none => .error (notGeneratedErr zip32_account_index)
      else .error multiSeedErr

/-- `parse_account_parameter` from `utils.rs`. `parseUuid` is the external
`uuid` crate's string parser (`s.parse()` followed by
`AccountUuid::from_uuid`), supplied as a collaborator. -/
def parse_account_parameter (parseUuid : String → Option AccountUuid)
    (wallet : DbConnection) : JsonValue → Except RpcError AccountUuid
  | .number n =>
    match (n.as_u64).filter (fun m => decide (m < ZCASH_LEGACY_ACCOUNT)) with
    | none => .error accountRangeErr
    | some zip32_account_index => resolveAccountIndex wallet zip32_account_index
  | .string s =>
    match parseUuid s with
    | some u => .ok u
    | none => .error (.code .InvalidParams)
  | .other => .error (.code .InvalidParams)

/-- `parse_diversifier_index` from `utils.rs`. The `zip32` crate's
`DiversifierIndex` is an 11-byte (88-bit) value; `TryFrom<u128>` succeeds
exactly when the value fits in 88 bits. -/
def parse_diversifier_index (diversifier_index : Nat) : Except RpcError Nat :=
  if diversifier_index < 2 ^ 88 then .ok diversifier_index
  else .error (.legacy .InvalidParameter "diversifier index is too large.")

/-! ## Declarative view of the numeric-account scan

`seedFingerprintsOf accts` lists the seed fingerprints of the seed-derived
accounts of a wallet whose contents are the association list `accts`;
`accountIndexMatches n` recognises a seed-derived account whose ZIP 32
account index is `n` (imported accounts never match). -/

def accountIndexMatches (n : Nat) (p : AccountUuid × Account) : Bool :=
  match p.2.key_derivation with
  | some derivation => derivation.account_index == n
  | none => false

def seedFingerprintsOf (accts : List (AccountUuid × Account)) :
    List SeedFingerprint :=
  (accts.filterMap (fun p => p.2.key_derivation)).map SeedDerivation.seed_fingerprint

/-- Pure form of the distinct-seed accumulation performed by the scan loop. -/
def insertAllSeeds : List SeedFingerprint → List SeedFingerprint → List SeedFingerprint
  | [], seeds => seeds
  | fp :: rest, seeds => insertAllSeeds rest (insertSeed fp seeds)

/-- Pure form of the matched-account accumulation performed by the scan loop:
the id of the last matching seed-derived account, if any. -/
def lastMatch (n : Nat) : List (AccountUuid × Account) → Option AccountUuid → Option AccountUuid
  | [], acc => acc
  | p :: rest, acc =>
    lastMatch n rest (if accountIndexMatches n p then some p.1 else acc)

/-! ## Asynchronous operations

From `list_operation_ids.rs`. An `AsyncOperation`'s `state` field is the
snapshot returned by the non-blocking `op.state().await` read at the time of
the listing call. -/

inductive OperationState where
  | pending
  | executing
  | success
  | failed
  | cancelled
deriving DecidableEq, Repr

/-- Modelled from the spec: `OperationState::parse` (its defining module is
not among the provided sources) is a permissive state-name parser mapping each
recognised state name to its state and every unrecognised string to `none`
(zcashd treats unrecognised state strings as non-matching). -/
def OperationState.parse (s : String) : Option OperationState :=
  if s == "pending" then some .pending
  else if s == "executing" then some .executing
  else if s == "success" then some .success
  else if s == "failed" then some .failed
  else if s == "cancelled" then some .cancelled
  else none

structure AsyncOperation where
  operation_id : String
  state : OperationState
deriving DecidableEq, Repr

/-- The body of the `for op in async_ops` loop of `list_operation_ids.rs`:
with no filter every id is kept; with a filter `f` (an `Option` because the
requested state may be unrecognised) an id is kept when `f == Some(op_state)`. -/
def collectOperationIds (state : Option (Option OperationState)) :
    List AsyncOperation → List String
  | [] => []
  | op :: rest =>
    match state with
    | none => op.operation_id :: collectOperationIds state rest
    | some f =>
      if f == some op.state then op.operation_id :: collectOperationIds state rest
      else collectOperationIds state rest

/-- `call` from `list_operation_ids.rs`: maps the optional `status` string
through the state parser and walks the operations in slice order (the registry
keeps them oldest-submitted first). -/
def list_operation_ids (async_ops : List AsyncOperation) (status : Option String) :
    Except RpcError (List String) :=
  .ok (collectOperationIds (status.map OperationState.parse) async_ops)

/-! ## Unified-address derivation

The implementation module of `z_getaddressforaccount` is not among the
provided sources; the pipeline below is modelled from the spec (§4.2) and the
RPC trait documentation in `methods.rs`. -/

/-- Receiver types, in the fixed preference order: best shielded (orchard),
second-best shielded (sapling), transparent (p2pkh). -/
inductive ReceiverType where
  | orchard
  | sapling
  | p2pkh
deriving DecidableEq, Repr

/-- The default receiver set: best and second-best shielded types plus the
transparent type, in preference order. -/
def defaultReceivers : List ReceiverType := [.orchard, .sapling, .p2pkh]

/-- The error produced when the account lacks key material for an explicitly
requested receiver type. -/
def unsupportedReceiverErr : RpcError :=
  .legacy .Wallet "account does not have key material for a requested receiver type"

/-- Modelled from the spec: receiver-type resolution (§4.2 step 1). With an
absent or empty request the effective set is the default set intersected with
what the account supports; a non-empty request is taken as-is but fails when
the account lacks key material for any requested type. -/
def effectiveReceivers (supported : List ReceiverType)
    (requested : Option (List ReceiverType)) : Except RpcError (List ReceiverType) :=
  match requested with
  | none => .ok (defaultReceivers.filter (fun t => decide (t ∈ supported)))
  | some rs =>
    if rs.isEmpty then .ok (defaultReceivers.filter (fun t => decide (t ∈ supported)))
    else if rs.all (fun t => decide (t ∈ supported)) then .ok rs
    else .error unsupportedReceiverErr

/-- The immutable result of one derivation. -/
structure UnifiedAddressRecord where
  account_id : AccountUuid
  diversifier_index : Nat
  receiver_types : List ReceiverType
  address_bytes : Nat
deriving DecidableEq, Repr

/-- The wallet's persisted unified-address records. -/
structure AddressBook where
  records : List UnifiedAddressRecord
deriving DecidableEq, Repr

/-- The record previously derived for `(account, diversifier index)`, if any. -/
def AddressBook.lookup (book : AddressBook) (a : AccountUuid) (d : Nat) :
    Option UnifiedAddressRecord :=
  book.records.find? (fun r => r.account_id == a && r.diversifier_index == d)

/-- Order-insensitive receiver-set equality. -/
def sameReceiverSet (xs ys : List ReceiverType) : Bool :=
  xs.all (fun t => ys.contains t) && ys.all (fun t => xs.contains t)

/-- The error produced on a derivation conflict at an already-used
diversifier index. -/
def addressConflictErr : RpcError :=
  .legacy .Wallet "address at this diversifier index was derived with different receiver types"

/-- Modelled from the spec: the idempotence / conflict check (§4.2 step 4).
`engine` is the external KeyDerivationEngine's deterministic
`derive_address`. A fresh `(account, index)` pair derives and persists a new
record; an existing record with the same receiver set is returned unchanged;
an existing record with a different receiver set is a conflict. -/
def deriveAtIndex (engine : AccountUuid → Nat → List ReceiverType → Nat)
    (book : AddressBook) (a : AccountUuid) (d : Nat) (rs : List ReceiverType) :
    Except RpcError (UnifiedAddressRecord × AddressBook) :=
  match book.lookup a d with
  | none =>
    let r : UnifiedAddressRecord :=
      { account_id := a, diversifier_index := d, receiver_types := rs,
        address_bytes := engine a d rs }
    .ok (r, { records := book.records ++ [r] })
  | some r =>
    if sameReceiverSet r.receiver_types rs then .ok (r, book)
    else .error addressConflictErr

/-- Modelled from the spec: the `z_getaddressforaccount` derivation pipeline
(§4.2). `alloc` abstracts the diversifier-index policy used when no index is
requested (next-unused for transparent-inclusive sets, time-based for
shielded-only sets); an explicitly requested index is validated against the
88-bit bound via `parse_diversifier_index`. -/
def derive (engine : AccountUuid → Nat → List ReceiverType → Nat)
    (alloc : AddressBook → AccountUuid → List ReceiverType → Nat)
    (supported : AccountUuid → List ReceiverType)
    (book : AddressBook) (a : AccountUuid)
    (requested_receivers : Option (List ReceiverType))
    (requested_index : Option Nat) :
    Except RpcError (UnifiedAddressRecord × AddressBook) :=
  match effectiveReceivers (supported a) requested_receivers with
  | .error e => .error e
  | .ok rs =>
    match requested_index with
    | some d =>
      match parse_diversifier_index d with
      | .error e => .error e
      | .ok d2 => deriveAtIndex engine book a d2 rs
    | none => deriveAtIndex engine book a (alloc book a rs) rs

/-! ## Concrete fixtures used by the witness theorems -/

/-- A trivial UUID-parser collaborator used in witnesses. -/
def uuidStub : String → Option AccountUuid := fun _ => none

def acctOf (fp i : Nat) : Account :=
  { key_derivation := some { seed_fingerprint := fp, account_index := i } }

def importedAcct : Account := { key_derivation := none }

/-- A consistent wallet built from an association list of accounts. -/
def mkWallet (accts : List (AccountUuid × Account)) : DbConnection :=
  { get_account_ids := .ok (accts.map Prod.fst),
    get_account := fun cid => .ok ((accts.find? (fun p => p.1 == cid)).map Prod.snd) }

/-- One seed (fingerprint 11) with account indices 0, 1, 5, plus an imported
account; mirrors test 2 of the spec. -/
def singleSeedAccts : List (AccountUuid × Account) :=
  [(100, acctOf 11 0), (101, acctOf 11 1), (102, acctOf 11 5), (103, importedAcct)]

/-- Two seed-derived accounts from two distinct seeds; mirrors test 1 of the
spec. -/
def multiSeedAccts : List (AccountUuid × Account) :=
  [(100, acctOf 11 0), (101, acctOf 22 7)]

/-- A wallet whose enumeration lists id 101 but whose lookup no longer finds
it (the concurrent-deletion race). -/
def racyWallet : DbConnection :=
  { get_account_ids := .ok [100, 101],
    get_account := fun cid => if cid == 100 then .ok (some (acctOf 11 0)) else .ok none }

/-- Operations in states pending/executing/success/failed; test 7 of the
spec. -/
def demoOps : List AsyncOperation :=
  [{ operation_id := "opid-1", state := .pending },
   { operation_id := "opid-2", state := .executing },
   { operation_id := "opid-3", state := .success },
   { operation_id := "opid-4", state := .failed }]

def demoEngine : AccountUuid → Nat → List ReceiverType → Nat :=
  fun a d _ => a * 1000000 + d

def demoAlloc : AddressBook → AccountUuid → List ReceiverType → Nat :=
  fun _ _ _ => 0

def demoSupported : AccountUuid → List ReceiverType :=
  fun _ => [.orchard, .sapling, .p2pkh]

def emptyBook : AddressBook := { records := [] }


/-! ## Lemmas about the numeric-account scan -/

lemma mem_insertSeed (x fp : SeedFingerprint) (s : List SeedFingerprint) :
    x ∈ insertSeed fp s ↔ x = fp ∨ x ∈ s := by
  unfold insertSeed
  split_ifs with h
  · constructor
    · exact fun hx => Or.inr hx
    · rintro (rfl | hx)
      · exact h
      · exact hx
  · exact List.mem_cons

lemma nodup_insertSeed (fp : SeedFingerprint) (s : List SeedFingerprint)
    (hs : s.Nodup) : (insertSeed fp s).Nodup := by
  unfold insertSeed
  split_ifs with h
  · exact hs
  · exact List.nodup_cons.mpr ⟨h, hs⟩

lemma mem_insertAllSeeds (x : SeedFingerprint) :
    ∀ (l s : List SeedFingerprint), x ∈ insertAllSeeds l s ↔ x ∈ l ∨ x ∈ s := by
  intro l
  induction l with
  | nil => intro s; simp [insertAllSeeds]
  | cons fp rest ih =>
    intro s
    rw [insertAllSeeds, ih, mem_insertSeed]
    simp [List.mem_cons]
    tauto

lemma nodup_insertAllSeeds :
    ∀ (l s : List SeedFingerprint), s.Nodup → (insertAllSeeds l s).Nodup := by
  intro l
  induction l with
  | nil => intro s hs; exact hs
  | cons fp rest ih =>
    intro s hs
    exact ih (insertSeed fp s) (nodup_insertSeed fp s hs)

/-- The scan's distinct-seed set has exactly as many elements as there are
distinct seed fingerprints. -/
lemma length_insertAllSeeds_nil (l : List SeedFingerprint) :
    (insertAllSeeds l []).length = l.dedup.length := by
  have hperm : List.Perm (insertAllSeeds l []) l.dedup := by
    rw [List.perm_ext_iff_of_nodup (nodup_insertAllSeeds l [] List.nodup_nil)
      (List.nodup_dedup l)]
    intro a
    rw [mem_insertAllSeeds, List.mem_dedup]
    simp
  exact hperm.length_eq

lemma lastMatch_eq_none_iff (n : Nat) :
    ∀ (accts : List (AccountUuid × Account)) (acc : Option AccountUuid),
      lastMatch n accts acc = none ↔
        acc = none ∧ ∀ p ∈ accts, accountIndexMatches n p = false := by
  intro accts
  induction accts with
  | nil => intro acc; simp [lastMatch]
  | cons p rest ih =>
    intro acc
    rw [lastMatch, ih]
    constructor
    · rintro ⟨hacc, hrest⟩
      by_cases hm : accountIndexMatches n p
      · rw [if_pos hm] at hacc; exact absurd hacc (by simp)
      · rw [if_neg hm] at hacc
        refine ⟨hacc, ?_⟩
        intro q hq
        rcases List.mem_cons.mp hq with rfl | hq
        · exact Bool.eq_false_iff.mpr hm
        · exact hrest q hq
    · rintro ⟨hacc, hall⟩
      have hp : accountIndexMatches n p = false := hall p (List.mem_cons_self p rest)
      refine ⟨?_, fun q hq => hall q (List.mem_cons_of_mem p hq)⟩
      rw [hp]
      simpa using hacc

lemma lastMatch_some_spec (n : Nat) :
    ∀ (accts : List (AccountUuid × Account)) (acc : Option AccountUuid) (cid : AccountUuid),
      lastMatch n accts acc = some cid →
        (∃ a, (cid, a) ∈ accts ∧ accountIndexMatches n (cid, a) = true) ∨ acc = some cid := by
  intro accts
  induction accts with
  | nil => intro acc cid h; exact Or.inr h
  | cons p rest ih =>
    intro acc cid h
    rw [lastMatch] at h
    rcases ih _ cid h with ⟨a, ha, hm⟩ | hacc
    · exact Or.inl ⟨a, List.mem_cons_of_mem p ha, hm⟩
    · by_cases hm : accountIndexMatches n p
      · rw [if_pos hm] at hacc
        obtain rfl : p.1 = cid := by simpa using hacc
        exact Or.inl ⟨p.2, List.mem_cons_self p rest, by simpa using hm⟩
      · rw [if_neg hm] at hacc
        exact Or.inr hacc

/-- Characterisation of the scan loop on a wallet whose lookups all succeed:
it returns the accumulated distinct-seed set and the last matching id. -/
lemma scanAccounts_eq (wallet : DbConnection) (n : Nat) :
    ∀ (accts : List (AccountUuid × Account)) (seeds : List SeedFingerprint)
      (acc : Option AccountUuid),
      (∀ p ∈ accts, wallet.get_account p.1 = .ok (some p.2)) →
      scanAccounts wallet n (accts.map Prod.fst) seeds acc =
        .ok (insertAllSeeds (seedFingerprintsOf accts) seeds, lastMatch n accts acc) := by
  intro accts
  induction accts with
  | nil => intro seeds acc _; rfl
  | cons p rest ih =>
    intro seeds acc h
    have hp : wallet.get_account p.1 = .ok (some p.2) := h p (List.mem_cons_self p rest)
    have hrest : ∀ q ∈ rest, wallet.get_account q.1 = .ok (some q.2) :=
      fun q hq => h q (List.mem_cons_of_mem p hq)
    cases hkd : p.2.key_derivation with
    | none =>
      simp only [List.map_cons, scanAccounts, hp, hkd]
      rw [ih seeds acc hrest]
      have h1 : seedFingerprintsOf (p :: rest) = seedFingerprintsOf rest := by
        simp [seedFingerprintsOf, List.filterMap_cons, hkd]
      have h2 : lastMatch n (p :: rest) acc = lastMatch n rest acc := by
        rw [lastMatch]
        have hm : accountIndexMatches n p = false := by
          simp [accountIndexMatches, hkd]
        rw [hm]
        simp
      rw [h1, h2]
    | some derivation =>
      simp only [List.map_cons, scanAccounts, hp, hkd]
      rw [ih _ _ hrest]
      have h1 : seedFingerprintsOf (p :: rest) =
          derivation.seed_fingerprint :: seedFingerprintsOf rest := by
        simp [seedFingerprintsOf, List.filterMap_cons, hkd]
      have h2 : accountIndexMatches n p = (derivation.account_index == n) := by
        simp [accountIndexMatches, hkd]
      rw [h1, insertAllSeeds, lastMatch, h2]


lemma effectiveReceivers_nonempty (supported : List ReceiverType)
    (rs : List ReceiverType) (hne : rs ≠ [])
    (hsup : ∀ t ∈ rs, t ∈ supported) :
    effectiveReceivers supported (some rs) = .ok rs := by
  have hall : rs.all (fun x => decide (x ∈ supported)) = true := by
    rw [List.all_eq_true]
    intro x hx
    exact decide_eq_true (hsup x hx)
  have hemp : rs.isEmpty = false := by
    cases rs with
    | nil => exact absurd rfl hne
    | cons t rest => rfl
  rw [effectiveReceivers, hemp, hall]
  simp

lemma find?_append_fresh (p : UnifiedAddressRecord → Bool) :
    ∀ (l : List UnifiedAddressRecord) (r : UnifiedAddressRecord),
      l.find? p = none → p r = true → (l ++ [r]).find? p = some r := by
  intro l
  induction l with
  | nil =>
    intro r _ hr
    simp [List.find?_cons, hr]
  | cons q rest ih =>
    intro r hfind hr
    simp only [List.find?_cons] at hfind
    rw [List.cons_append]
    simp only [List.find?_cons]
    rcases hq : p q with _ | _
    · rw [hq] at hfind
      simp only at hfind ⊢
      exact ih r hfind hr
    · rw [hq] at hfind
      simp at hfind

lemma lookup_append_fresh (book : AddressBook) (r : UnifiedAddressRecord)
    (a : AccountUuid) (d : Nat) (hfresh : book.lookup a d = none)
    (ha : r.account_id = a) (hd : r.diversifier_index = d) :
    AddressBook.lookup { records := book.records ++ [r] } a d = some r := by
  unfold AddressBook.lookup at hfresh ⊢
  exact find?_append_fresh _ book.records r hfresh (by simp [ha, hd])

/-! ## Computation lemmas for `parse_account_parameter` -/

lemma parse_number_in_range (parseUuid : String → Option AccountUuid)
    (wallet : DbConnection) (n : Nat) (hn : n < ZCASH_LEGACY_ACCOUNT) :
    parse_account_parameter parseUuid wallet (.number (.posInt n)) =
      resolveAccountIndex wallet n := by
  unfold parse_account_parameter
  simp [JsonNumber.as_u64, Option.filter, hn]

lemma parse_number_out_of_range (parseUuid : String → Option AccountUuid)
    (wallet : DbConnection) (n : Nat) (hn : ZCASH_LEGACY_ACCOUNT ≤ n) :
    parse_account_parameter parseUuid wallet (.number (.posInt n)) =
      .error accountRangeErr := by
  unfold parse_account_parameter
  simp [JsonNumber.as_u64, Option.filter, Nat.not_lt.mpr hn]

lemma resolveAccountIndex_ids (wallet : DbConnection) (n : Nat)
    (ids : List AccountUuid) (h : wallet.get_account_ids = .ok ids) :
    resolveAccountIndex wallet n =
      match scanAccounts wallet n ids [] none with
      | .error e => .error e
      | .ok (distinct_seeds, account_id) =>
        if distinct_seeds.length == 1 then
          match account_id with
          | some cid => .ok cid
          | none => .error (notGeneratedErr n)
        else .error multiSeedErr := by
  unfold resolveAccountIndex
  rw [h]

/-- The numeric-account resolution on a consistent wallet, phrased through the
declarative quantities: the number of distinct seed fingerprints and the last
matching seed-derived account. -/
lemma resolveAccountIndex_eq (wallet : DbConnection) (n : Nat)
    (accts : List (AccountUuid × Account))
    (hids : wallet.get_account_ids = .ok (accts.map Prod.fst))
    (hlook : ∀ p ∈ accts, wallet.get_account p.1 = .ok (some p.2)) :
    resolveAccountIndex wallet n =
      if (seedFingerprintsOf accts).dedup.length = 1 then
        match lastMatch n accts none with
        | some cid => .ok cid
        | none => .error (notGeneratedErr n)
      else .error multiSeedErr := by
  rw [resolveAccountIndex_ids wallet n _ hids,
    scanAccounts_eq wallet n accts [] none hlook]
  simp only [length_insertAllSeeds_nil]
  by_cases h1 : (seedFingerprintsOf accts).dedup.length = 1
  · simp [h1]
  · simp [h1]

/-! ## Claim theorems -/

/-- C7: for every integer account reference `n`, resolution proceeds to the
account scan exactly when `0 ≤ n ≤ 0x7FFF_FFFE`; any larger value (in
particular `2^31 - 1`) fails with the `InvalidParameter` range error, for
every wallet, hence before any wallet access. -/
theorem account_number_range_guard (parseUuid : String → Option AccountUuid)
    (wallet : DbConnection) (n : Nat) (hn64 : n < 2 ^ 64) :
    (n ≤ 0x7ffffffe →
      parse_account_parameter parseUuid wallet (.number (.posInt n)) =
        resolveAccountIndex wallet n) ∧
    (0x7ffffffe < n →
      parse_account_parameter parseUuid wallet (.number (.posInt n)) =
        .error accountRangeErr) := by
  constructor
  · intro h
    exact parse_number_in_range parseUuid wallet n
      (by unfold ZCASH_LEGACY_ACCOUNT; omega)
  · intro h
    exact parse_number_out_of_range parseUuid wallet n
      (by unfold ZCASH_LEGACY_ACCOUNT; omega)

theorem account_number_range_guard_witness :
    ((2147483647 : Nat) < 2 ^ 64 ∧
      parse_account_parameter uuidStub (mkWallet singleSeedAccts)
        (.number (.posInt 2147483647)) = .error accountRangeErr) ∧
    ((5 : Nat) < 2 ^ 64 ∧
      parse_account_parameter uuidStub (mkWallet singleSeedAccts)
        (.number (.posInt 5)) = resolveAccountIndex (mkWallet singleSeedAccts) 5) :=
  ⟨⟨by norm_num,
    (account_number_range_guard uuidStub (mkWallet singleSeedAccts) 2147483647
      (by norm_num)).2 (by norm_num)⟩,
   ⟨by norm_num,
    (account_number_range_guard uuidStub (mkWallet singleSeedAccts) 5
      (by norm_num)).1 (by norm_num)⟩⟩

/-- C10: a JSON number that is negative, fractional or outside the `u64`
range fails with the same `InvalidParameter` range error as an oversized
integer, not with the `InvalidParams` shape error. -/
theorem non_integer_number_account_error (parseUuid : String → Option AccountUuid)
    (wallet : DbConnection) (i : Int) (hi : i < 0) :
    parse_account_parameter parseUuid wallet (.number (.negInt i)) =
      .error accountRangeErr ∧
    parse_account_parameter parseUuid wallet (.number .float) =
      .error accountRangeErr ∧
    parse_account_parameter parseUuid wallet (.number (.posInt (2 ^ 31))) =
      .error accountRangeErr ∧
    accountRangeErr ≠ .code .InvalidParams := by
  refine ⟨rfl, rfl, ?_, by decide⟩
  exact parse_number_out_of_range parseUuid wallet (2 ^ 31)
    (by unfold ZCASH_LEGACY_ACCOUNT; norm_num)

theorem non_integer_number_account_error_witness :
    (-5 : Int) < 0 ∧
    parse_account_parameter uuidStub (mkWallet singleSeedAccts)
      (.number (.negInt (-5))) = .error accountRangeErr :=
  ⟨by norm_num,
   (non_integer_number_account_error uuidStub (mkWallet singleSeedAccts) (-5)
     (by norm_num)).1⟩

/-- C9: a string account reference is resolved through the opaque-identifier
(UUID) parser, failing with `InvalidParams` when malformed; an account
reference that is neither a number nor a string fails with `InvalidParams`. -/
theorem account_reference_shape (parseUuid : String → Option AccountUuid)
    (wallet : DbConnection) (s : String) :
    (∀ u, parseUuid s = some u →
      parse_account_parameter parseUuid wallet (.string s) = .ok u) ∧
    (parseUuid s = none →
      parse_account_parameter parseUuid wallet (.string s) =
        .error (.code .InvalidParams)) ∧
    parse_account_parameter parseUuid wallet .other =
      .error (.code .InvalidParams) := by
  refine ⟨?_, ?_, rfl⟩
  · intro u hu
    simp only [parse_account_parameter, hu]
  · intro hu
    simp only [parse_account_parameter, hu]

theorem account_reference_shape_witness :
    (uuidStub "not-a-uuid" = none ∧
      parse_account_parameter uuidStub (mkWallet singleSeedAccts)
        (.string "not-a-uuid") = .error (.code .InvalidParams)) ∧
    parse_account_parameter (fun _ => some 7) (mkWallet singleSeedAccts)
      (.string "00000000-0000-0000-0000-000000000007") = .ok 7 :=
  ⟨⟨rfl, (account_reference_shape uuidStub (mkWallet singleSeedAccts)
      "not-a-uuid").2.1 rfl⟩,
   (account_reference_shape (fun _ => some 7) (mkWallet singleSeedAccts)
      "00000000-0000-0000-0000-000000000007").1 7 rfl⟩

/-- C4: an explicitly supplied diversifier index (an unsigned 128-bit value)
parses exactly when it is below `2^88`; `2^88 - 1` is accepted and any value
at or above `2^88` fails with `InvalidParameter`. -/
theorem diversifier_index_88_bit_bound (d : Nat) (hd : d < 2 ^ 128) :
    (d < 2 ^ 88 → parse_diversifier_index d = .ok d) ∧
    (2 ^ 88 ≤ d →
      parse_diversifier_index d =
        .error (.legacy .InvalidParameter "diversifier index is too large.")) := by
  constructor
  · intro h
    unfold parse_diversifier_index
    rw [if_pos h]
  · intro h
    unfold parse_diversifier_index
    rw [if_neg (Nat.not_lt.mpr h)]

theorem diversifier_index_88_bit_bound_witness :
    parse_diversifier_index (2 ^ 88 - 1) = .ok (2 ^ 88 - 1) ∧
    parse_diversifier_index (2 ^ 88) =
      .error (.legacy .InvalidParameter "diversifier index is too large.") :=
  ⟨(diversifier_index_88_bit_bound (2 ^ 88 - 1) (by norm_num)).1 (by norm_num),
   (diversifier_index_88_bit_bound (2 ^ 88) (by norm_num)).2 (by norm_num)⟩

/-- C1: on a consistent wallet whose seed-derived accounts carry exactly one
distinct seed fingerprint, an in-range numeric reference `n` resolves to the
id of a seed-derived account with ZIP 32 index `n` when one exists (imported
accounts are never candidates), and fails with the Wallet-kind
"not generated" error when no seed-derived account has index `n`. -/
theorem numeric_resolution_single_seed (parseUuid : String → Option AccountUuid)
    (wallet : DbConnection) (n : Nat) (accts : List (AccountUuid × Account))
    (hn : n < ZCASH_LEGACY_ACCOUNT)
    (hids : wallet.get_account_ids = .ok (accts.map Prod.fst))
    (hlook : ∀ p ∈ accts, wallet.get_account p.1 = .ok (some p.2))
    (hone : (seedFingerprintsOf accts).dedup.length = 1) :
    ((∃ p ∈ accts, accountIndexMatches n p = true) →
      ∃ cid a, (cid, a) ∈ accts ∧ accountIndexMatches n (cid, a) = true ∧
        parse_account_parameter parseUuid wallet (.number (.posInt n)) = .ok cid) ∧
    ((∀ p ∈ accts, accountIndexMatches n p = false) →
      parse_account_parameter parseUuid wallet (.number (.posInt n)) =
        .error (notGeneratedErr n)) := by
  have hres := parse_number_in_range parseUuid wallet n hn
  have heq := resolveAccountIndex_eq wallet n accts hids hlook
  rw [hres, heq, if_pos hone]
  constructor
  · rintro ⟨p, hp, hm⟩
    cases hlm : lastMatch n accts none with
    | none =>
      rw [lastMatch_eq_none_iff] at hlm
      have hfalse := hlm.2 p hp
      rw [hm] at hfalse
      exact absurd hfalse (by simp)
    | some cid =>
      rcases lastMatch_some_spec n accts none cid hlm with ⟨a, ha, hma⟩ | hnone
      · exact ⟨cid, a, ha, hma, rfl⟩
      · exact Option.noConfusion hnone
  · intro hall
    have hlm : lastMatch n accts none = none :=
      (lastMatch_eq_none_iff n accts none).mpr ⟨rfl, hall⟩
    rw [hlm]

theorem numeric_resolution_single_seed_witness :
    (∃ cid a, (cid, a) ∈ singleSeedAccts ∧ accountIndexMatches 5 (cid, a) = true ∧
      parse_account_parameter uuidStub (mkWallet singleSeedAccts)
        (.number (.posInt 5)) = .ok cid) ∧
    parse_account_parameter uuidStub (mkWallet singleSeedAccts)
      (.number (.posInt 3)) = .error (notGeneratedErr 3) :=
  ⟨(numeric_resolution_single_seed uuidStub (mkWallet singleSeedAccts) 5 singleSeedAccts
      (by norm_num [ZCASH_LEGACY_ACCOUNT]) rfl
      (by intro p hp; fin_cases hp <;> rfl) (by decide)).1
      ⟨(102, acctOf 11 5), by decide, by decide⟩,
   (numeric_resolution_single_seed uuidStub (mkWallet singleSeedAccts) 3 singleSeedAccts
      (by norm_num [ZCASH_LEGACY_ACCOUNT]) rfl
      (by intro p hp; fin_cases hp <;> rfl) (by decide)).2 (by decide)⟩

/-- C2: on a consistent wallet whose seed-derived accounts carry a number of
distinct seed fingerprints other than one (zero, or two or more), every
in-range numeric account reference fails with the Wallet-kind multi-seed
error, regardless of whether any index matches. -/
theorem numeric_resolution_multi_seed (parseUuid : String → Option AccountUuid)
    (wallet : DbConnection) (n : Nat) (accts : List (AccountUuid × Account))
    (hn : n < ZCASH_LEGACY_ACCOUNT)
    (hids : wallet.get_account_ids = .ok (accts.map Prod.fst))
    (hlook : ∀ p ∈ accts, wallet.get_account p.1 = .ok (some p.2))
    (hmulti : (seedFingerprintsOf accts).dedup.length ≠ 1) :
    parse_account_parameter parseUuid wallet (.number (.posInt n)) =
      .error multiSeedErr := by
  rw [parse_number_in_range parseUuid wallet n hn,
    resolveAccountIndex_eq wallet n accts hids hlook, if_neg hmulti]

theorem numeric_resolution_multi_seed_witness :
    parse_account_parameter uuidStub (mkWallet multiSeedAccts)
      (.number (.posInt 0)) = .error multiSeedErr ∧
    parse_account_parameter uuidStub (mkWallet multiSeedAccts)
      (.number (.posInt 9)) = .error multiSeedErr ∧
    parse_account_parameter uuidStub (mkWallet [(103, importedAcct)])
      (.number (.posInt 0)) = .error multiSeedErr :=
  ⟨numeric_resolution_multi_seed uuidStub (mkWallet multiSeedAccts) 0 multiSeedAccts
      (by norm_num [ZCASH_LEGACY_ACCOUNT]) rfl
      (by intro p hp; fin_cases hp <;> rfl) (by decide),
   numeric_resolution_multi_seed uuidStub (mkWallet multiSeedAccts) 9 multiSeedAccts
      (by norm_num [ZCASH_LEGACY_ACCOUNT]) rfl
      (by intro p hp; fin_cases hp <;> rfl) (by decide),
   numeric_resolution_multi_seed uuidStub (mkWallet [(103, importedAcct)]) 0
      [(103, importedAcct)]
      (by norm_num [ZCASH_LEGACY_ACCOUNT]) rfl
      (by intro p hp; fin_cases hp <;> rfl) (by decide)⟩

lemma scanAccounts_vanished (wallet : DbConnection) (n : Nat) :
    ∀ (pre : List AccountUuid) (cid : AccountUuid) (post : List AccountUuid)
      (seeds : List SeedFingerprint) (acc : Option AccountUuid),
      (∀ i ∈ pre, ∃ a, wallet.get_account i = .ok (some a)) →
      wallet.get_account cid = .ok none →
      scanAccounts wallet n (pre ++ cid :: post) seeds acc =
        .error (.code .InternalError) := by
  intro pre
  induction pre with
  | nil =>
    intro cid post seeds acc _ hgone
    simp only [List.nil_append, scanAccounts, hgone]
  | cons i rest ih =>
    intro cid post seeds acc hpre hgone
    obtain ⟨a, ha⟩ := hpre i (List.mem_cons_self i rest)
    have hrest : ∀ j ∈ rest, ∃ b, wallet.get_account j = .ok (some b) :=
      fun j hj => hpre j (List.mem_cons_of_mem i hj)
    simp only [List.cons_append, scanAccounts, ha]
    cases hkd : a.key_derivation with
    | none => exact ih cid post seeds acc hrest hgone
    | some derivation => exact ih cid post _ _ hrest hgone

/-- C8: when an account id obtained from the initial enumeration is no longer
fetchable at lookup time (the store returns no record), in-range numeric
resolution fails with `InternalError`: the race is surfaced, never skipped. -/
theorem vanished_account_internal_error (parseUuid : String → Option AccountUuid)
    (wallet : DbConnection) (n : Nat) (pre : List AccountUuid) (cid : AccountUuid)
    (post : List AccountUuid)
    (hn : n < ZCASH_LEGACY_ACCOUNT)
    (hids : wallet.get_account_ids = .ok (pre ++ cid :: post))
    (hpre : ∀ i ∈ pre, ∃ a, wallet.get_account i = .ok (some a))
    (hgone : wallet.get_account cid = .ok none) :
    parse_account_parameter parseUuid wallet (.number (.posInt n)) =
      .error (.code .InternalError) := by
  rw [parse_number_in_range parseUuid wallet n hn,
    resolveAccountIndex_ids wallet n _ hids,
    scanAccounts_vanished wallet n pre cid post [] none hpre hgone]

theorem vanished_account_internal_error_witness :
    parse_account_parameter uuidStub racyWallet (.number (.posInt 0)) =
      .error (.code .InternalError) :=
  vanished_account_internal_error uuidStub racyWallet 0 [100] 101 []
    (by norm_num [ZCASH_LEGACY_ACCOUNT]) rfl
    (by
      intro i hi
      rw [List.mem_singleton] at hi
      subst hi
      exact ⟨acctOf 11 0, rfl⟩)
    rfl

lemma collectOperationIds_none (ops : List AsyncOperation) :
    collectOperationIds none ops = ops.map AsyncOperation.operation_id := by
  induction ops with
  | nil => rfl
  | cons op rest ih => simp [collectOperationIds, ih]

lemma collectOperationIds_some (f : Option OperationState) (ops : List AsyncOperation) :
    collectOperationIds (some f) ops =
      (ops.filter (fun op => f == some op.state)).map AsyncOperation.operation_id := by
  induction ops with
  | nil => rfl
  | cons op rest ih =>
    simp only [collectOperationIds, List.filter_cons]
    rcases hf : (f == some op.state) with _ | _
    · simp [hf, ih]
    · simp [hf, ih]

lemma filter_beq_decide (st : OperationState) (ops : List AsyncOperation) :
    ops.filter (fun op => some st == some op.state) =
      ops.filter (fun op => decide (op.state = st)) := by
  induction ops with
  | nil => rfl
  | cons op rest ih =>
    have hpred : (some st == some op.state) = decide (op.state = st) := by
      cases st <;> cases hop : op.state <;> rfl
    simp only [List.filter_cons, hpred, ih]

lemma filter_none_beq (ops : List AsyncOperation) :
    ops.filter (fun op => (none : Option OperationState) == some op.state) = [] := by
  induction ops with
  | nil => rfl
  | cons op rest ih => simpa [List.filter_cons] using ih

/-- C6: with no filter the listing returns every operation id in
oldest-submitted-first (slice) order; a filter string naming a recognised
state returns exactly the ids of operations whose current snapshot state
equals it; an unrecognised filter string yields the empty list, not an
error. -/
theorem list_operation_ids_behaviour (ops : List AsyncOperation) (s : String) :
    list_operation_ids ops none = .ok (ops.map AsyncOperation.operation_id) ∧
    (∀ st, OperationState.parse s = some st →
      list_operation_ids ops (some s) =
        .ok ((ops.filter (fun op => decide (op.state = st))).map
          AsyncOperation.operation_id)) ∧
    (OperationState.parse s = none → list_operation_ids ops (some s) = .ok []) := by
  refine ⟨?_, ?_, ?_⟩
  · have h : list_operation_ids ops none =
        .ok (collectOperationIds none ops) := rfl
    rw [h, collectOperationIds_none]
  · intro st hst
    have h : list_operation_ids ops (some s) =
        .ok (collectOperationIds (some (OperationState.parse s)) ops) := rfl
    rw [h, hst, collectOperationIds_some, filter_beq_decide]
  · intro hst
    have h : list_operation_ids ops (some s) =
        .ok (collectOperationIds (some (OperationState.parse s)) ops) := rfl
    rw [h, hst, collectOperationIds_some, filter_none_beq]
    rfl

theorem list_operation_ids_behaviour_witness :
    (OperationState.parse "executing" = some .executing ∧
      list_operation_ids demoOps (some "executing") = .ok ["opid-2"]) ∧
    (OperationState.parse "unknownstate" = none ∧
      list_operation_ids demoOps (some "unknownstate") = .ok []) ∧
    list_operation_ids demoOps none =
      .ok ["opid-1", "opid-2", "opid-3", "opid-4"] := by
  refine ⟨⟨by decide, ?_⟩, ⟨by decide, ?_⟩, ?_⟩
  · rw [(list_operation_ids_behaviour demoOps "executing").2.1 .executing (by decide)]
    rfl
  · exact (list_operation_ids_behaviour demoOps "unknownstate").2.2 (by decide)
  · rw [(list_operation_ids_behaviour demoOps "executing").1]
    rfl

lemma effectiveReceivers_default (supported : List ReceiverType)
    (req : Option (List ReceiverType)) (hreq : req = none ∨ req = some []) :
    effectiveReceivers supported req =
      .ok (defaultReceivers.filter (fun t => decide (t ∈ supported))) := by
  rcases hreq with rfl | rfl
  · rfl
  · rfl

lemma parse_diversifier_ok (d : Nat) (hd : d < 2 ^ 88) :
    parse_diversifier_index d = .ok d := by
  unfold parse_diversifier_index
  rw [if_pos hd]

lemma derive_explicit_eq (engine : AccountUuid → Nat → List ReceiverType → Nat)
    (alloc : AddressBook → AccountUuid → List ReceiverType → Nat)
    (supported : AccountUuid → List ReceiverType) (book : AddressBook)
    (a : AccountUuid) (req : Option (List ReceiverType)) (rs : List ReceiverType)
    (d : Nat) (heff : effectiveReceivers (supported a) req = .ok rs)
    (hd : d < 2 ^ 88) :
    derive engine alloc supported book a req (some d) =
      deriveAtIndex engine book a d rs := by
  unfold derive
  rw [heff]
  show (match parse_diversifier_index d with
        | .error e => .error e
        | .ok d2 => deriveAtIndex engine book a d2 rs) =
      deriveAtIndex engine book a d rs
  rw [parse_diversifier_ok d hd]

lemma deriveAtIndex_fresh (engine : AccountUuid → Nat → List ReceiverType → Nat)
    (book : AddressBook) (a : AccountUuid) (d : Nat) (rs : List ReceiverType)
    (hfresh : book.lookup a d = none) :
    deriveAtIndex engine book a d rs =
      .ok ({ account_id := a, diversifier_index := d, receiver_types := rs,
             address_bytes := engine a d rs },
           { records := book.records ++
               [{ account_id := a, diversifier_index := d, receiver_types := rs,
                  address_bytes := engine a d rs }] }) := by
  unfold deriveAtIndex
  rw [hfresh]

lemma deriveAtIndex_cached (engine : AccountUuid → Nat → List ReceiverType → Nat)
    (book : AddressBook) (a : AccountUuid) (d : Nat) (rs : List ReceiverType)
    (r : UnifiedAddressRecord) (hr : book.lookup a d = some r)
    (hsame : sameReceiverSet r.receiver_types rs = true) :
    deriveAtIndex engine book a d rs = .ok (r, book) := by
  unfold deriveAtIndex
  rw [hr]
  simp [hsame]

lemma deriveAtIndex_conflict (engine : AccountUuid → Nat → List ReceiverType → Nat)
    (book : AddressBook) (a : AccountUuid) (d : Nat) (rs : List ReceiverType)
    (r : UnifiedAddressRecord) (hr : book.lookup a d = some r)
    (hdiff : sameReceiverSet r.receiver_types rs = false) :
    deriveAtIndex engine book a d rs = .error addressConflictErr := by
  unfold deriveAtIndex
  rw [hr]
  simp [hdiff]

/-- C5: with an absent or empty requested receiver list, the effective
receiver set used for derivation is exactly the default set {best shielded,
second-best shielded, transparent} intersected with the account's supported
types, in preference order; default types the account lacks are silently
omitted and derivation succeeds. -/
theorem default_receiver_selection
    (engine : AccountUuid → Nat → List ReceiverType → Nat)
    (alloc : AddressBook → AccountUuid → List ReceiverType → Nat)
    (supported : AccountUuid → List ReceiverType) (book : AddressBook)
    (a : AccountUuid) (d : Nat) (req : Option (List ReceiverType))
    (hreq : req = none ∨ req = some []) (hd : d < 2 ^ 88)
    (hfresh : book.lookup a d = none) :
    ∃ rec book2,
      derive engine alloc supported book a req (some d) = .ok (rec, book2) ∧
      rec.receiver_types =
        defaultReceivers.filter (fun t => decide (t ∈ supported a)) := by
  rw [derive_explicit_eq engine alloc supported book a req _ d
      (effectiveReceivers_default (supported a) req hreq) hd,
    deriveAtIndex_fresh engine book a d _ hfresh]
  exact ⟨_, _, rfl, rfl⟩

theorem default_receiver_selection_witness :
    ∃ rec book2,
      derive demoEngine demoAlloc (fun _ => [.orchard, .p2pkh]) emptyBook 1
        none (some 7) = .ok (rec, book2) ∧
      rec.receiver_types =
        defaultReceivers.filter
          (fun t => decide (t ∈ [ReceiverType.orchard, ReceiverType.p2pkh])) :=
  default_receiver_selection demoEngine demoAlloc (fun _ => [.orchard, .p2pkh])
    emptyBook 1 7 none (Or.inl rfl) (by norm_num) rfl

/-- C3: unified-address derivation is idempotent and conflict-safe at a fixed
(account, diversifier index): after a first derivation with receiver set `rs`,
a second request with a set-equal (order-insensitive) list returns the
recorded record bit-identically and leaves the book unchanged; a request with
a different non-empty list fails with the Wallet-kind conflict error, and the
previously recorded record is still in place. -/
theorem derivation_idempotent_conflict_safe
    (engine : AccountUuid → Nat → List ReceiverType → Nat)
    (alloc : AddressBook → AccountUuid → List ReceiverType → Nat)
    (supported : AccountUuid → List ReceiverType) (book0 : AddressBook)
    (a : AccountUuid) (d : Nat) (rs rs2 rs3 : List ReceiverType)
    (hd : d < 2 ^ 88) (hfresh : book0.lookup a d = none)
    (hrs : rs ≠ []) (hsup : ∀ t ∈ rs, t ∈ supported a)
    (hrs2 : rs2 ≠ []) (hsup2 : ∀ t ∈ rs2, t ∈ supported a)
    (hrs3 : rs3 ≠ []) (hsup3 : ∀ t ∈ rs3, t ∈ supported a)
    (hsame : sameReceiverSet rs rs2 = true)
    (hdiff : sameReceiverSet rs rs3 = false) :
    ∃ rec book1,
      derive engine alloc supported book0 a (some rs) (some d) = .ok (rec, book1) ∧
      derive engine alloc supported book1 a (some rs2) (some d) = .ok (rec, book1) ∧
      derive engine alloc supported book1 a (some rs3) (some d) =
        .error addressConflictErr ∧
      book1.lookup a d = some rec := by
  refine ⟨{ account_id := a, diversifier_index := d, receiver_types := rs,
            address_bytes := engine a d rs },
          { records := book0.records ++
              [{ account_id := a, diversifier_index := d, receiver_types := rs,
                 address_bytes := engine a d rs }] }, ?_, ?_, ?_, ?_⟩
  · rw [derive_explicit_eq engine alloc supported book0 a _ rs d
        (effectiveReceivers_nonempty (supported a) rs hrs hsup) hd,
      deriveAtIndex_fresh engine book0 a d rs hfresh]
  · rw [derive_explicit_eq engine alloc supported _ a _ rs2 d
        (effectiveReceivers_nonempty (supported a) rs2 hrs2 hsup2) hd]
    exact deriveAtIndex_cached engine _ a d rs2 _
      (lookup_append_fresh book0 _ a d hfresh rfl rfl) hsame
  · rw [derive_explicit_eq engine alloc supported _ a _ rs3 d
        (effectiveReceivers_nonempty (supported a) rs3 hrs3 hsup3) hd]
    exact deriveAtIndex_conflict engine _ a d rs3 _
      (lookup_append_fresh book0 _ a d hfresh rfl rfl) hdiff
  · exact lookup_append_fresh book0 _ a d hfresh rfl rfl

theorem derivation_idempotent_conflict_safe_witness :
    ∃ rec book1,
      derive demoEngine demoAlloc demoSupported emptyBook 1
        (some [.p2pkh, .orchard]) (some 7) = .ok (rec, book1) ∧
      derive demoEngine demoAlloc demoSupported book1 1
        (some [.orchard, .p2pkh]) (some 7) = .ok (rec, book1) ∧
      derive demoEngine demoAlloc demoSupported book1 1
        (some [.orchard]) (some 7) = .error addressConflictErr ∧
      book1.lookup 1 7 = some rec :=
  derivation_idempotent_conflict_safe demoEngine demoAlloc demoSupported emptyBook 1 7
    [.p2pkh, .orchard] [.orchard, .p2pkh] [.orchard]
    (by norm_num) rfl (by decide) (by decide) (by decide) (by decide)
    (by decide) (by decide) (by decide) (by decide)
